import Mathlib

/-!
Verification of the pytheriak theriak-output parser (`src/pytheriak/wrapper.py`).

The Python code is shallowly embedded: each method of `TherCaller`, `Rock`,
`Phase`, `Mineral` and `Fluid` that the claims touch becomes a Lean function on
`String` / `List String`.  Numeric tokens are parsed into `DecFloat`, exact
decimals in canonical form: two decimal tokens denote the same real number —
and hence the same Python float wherever the decimals are exactly
representable or equal — iff their canonical forms are structurally equal.
A Python expression that can raise (`list.index`, `l[i]`, `float`) becomes an
`Option`-valued function, `none` standing for the raised exception.
-/

namespace Pytheriak

/-- Python whitespace, as used by `str.split()` with no argument and by the
regex class used in the end-member line filter. -/
def pyWs (c : Char) : Bool :=
  c == ' ' || c == '\t' || c == '\n' || c == '\r' || c == '\x0b' || c == '\x0c'

/-- `listPre pre hay` : `pre` is a prefix of `hay` (character lists). -/
def listPre : List Char → List Char → Bool
  | [], _ => true
  | _ :: _, [] => false
  | a :: as, b :: bs => a == b && listPre as bs

/-- Python `str.startswith`. -/
def pyStartsWith (s pre : String) : Bool :=
  listPre pre.toList s.toList

/-- `pat` occurs contiguously inside the list. -/
def listHasRun (pat : List Char) : List Char → Bool
  | [] => listPre pat []
  | c :: rest => listPre pat (c :: rest) || listHasRun pat rest

/-- Python `pat in s` on strings (substring containment). -/
def hasSubstr (s pat : String) : Bool :=
  listHasRun pat.toList s.toList

/-- Helper for `pySplit`: accumulates the current token (reversed). -/
def pySplitAux : List Char → List Char → List String
  | [], acc => if acc.isEmpty then [] else [String.mk acc.reverse]
  | c :: cs, acc =>
    if pyWs c then
      if acc.isEmpty then pySplitAux cs []
      else String.mk acc.reverse :: pySplitAux cs []
    else pySplitAux cs (c :: acc)

/-- Python `str.split()` with no argument: split on runs of whitespace,
dropping empty tokens. -/
def pySplit (s : String) : List String :=
  pySplitAux s.toList []

/-- Helper for `pySplitlines`. -/
def pySplitlinesAux : List Char → List Char → List String
  | [], acc => if acc.isEmpty then [] else [String.mk acc.reverse]
  | '\r' :: '\n' :: cs, acc => String.mk acc.reverse :: pySplitlinesAux cs []
  | '\n' :: cs, acc => String.mk acc.reverse :: pySplitlinesAux cs []
  | '\r' :: cs, acc => String.mk acc.reverse :: pySplitlinesAux cs []
  | c :: cs, acc => pySplitlinesAux cs (c :: acc)

/-- Python `str.splitlines()` (no trailing empty line for a trailing
line break). -/
def pySplitlines (s : String) : List String :=
  pySplitlinesAux s.toList []

/-- Index (counted from the front) of the first list entry equal to `key`;
`none` when `key` is absent.  Embeds Python `list.index`, whose `ValueError`
becomes `none`. -/
def firstIdx (key : String) : List String → Option Nat
  | [] => none
  | l :: ls => if l = key then some 0 else (firstIdx key ls).map (· + 1)

/-- Clamp a Python slice bound to an index of a list of length `n`:
negative values count from the end. -/
def pyBound (n : Nat) (i : Int) : Nat :=
  if i < 0 then ((n : Int) + i).toNat else min i.toNat n

/-- Python slice `l[a:b]` (step 1). -/
def pySlice {α : Type} (l : List α) (a b : Int) : List α :=
  (l.take (pyBound l.length b)).drop (pyBound l.length a)

/-- Python indexing `l[i]` with negative indices from the end;
`none` is the raised `IndexError`. -/
def pyGet {α : Type} (l : List α) (i : Int) : Option α :=
  if i < 0 then
    if (-i).toNat ≤ l.length then l.get? (l.length - (-i).toNat) else none
  else l.get? i.toNat

/-- Numeric value of a run of decimal digits. -/
def digitsVal : List Char → Nat → Nat
  | [], acc => acc
  | c :: cs, acc => digitsVal cs (acc * 10 + (c.toNat - '0'.toNat))

/-- Exponent part of a float token (after `e`/`E`). -/
def parseExp : List Char → Option Int
  | [] => none
  | '+' :: ds => if ds ≠ [] ∧ ds.all Char.isDigit then some (digitsVal ds 0) else none
  | '-' :: ds => if ds ≠ [] ∧ ds.all Char.isDigit then some (-(digitsVal ds 0 : Int)) else none
  | ds => if ds.all Char.isDigit then some (digitsVal ds 0) else none

/-- An exact decimal value `mant / 10 ^ exp` in canonical form (the mantissa
carries no trailing factor of ten unless the exponent is zero).  Two decimal
tokens denote the same real number iff their canonical forms are equal, so
structural equality of `DecFloat` is value equality of the parsed Python
floats. -/
structure DecFloat where
  mant : Int
  exp : Nat
deriving DecidableEq, Inhabited

/-- Strip common factors of ten from `mant / 10 ^ exp`. -/
def stripTens : Int → Nat → Int × Nat
  | m, 0 => (m, 0)
  | m, e + 1 => if m.emod 10 = 0 then stripTens (m.ediv 10) e else (m, e + 1)

/-- Canonical decimal `m / 10 ^ e`. -/
def canonDF (m : Int) (e : Nat) : DecFloat :=
  let p := stripTens m e
  ⟨p.1, p.2⟩

instance : OfScientific DecFloat :=
  ⟨fun m b e => if b then canonDF (m : Int) e else canonDF ((m : Int) * (10 : Int) ^ e) 0⟩

instance (n : Nat) : OfNat DecFloat n := ⟨canonDF (n : Int) 0⟩

instance : Neg DecFloat := ⟨fun d => ⟨-d.mant, d.exp⟩⟩

/-- The rational value of a canonical decimal. -/
def DecFloat.toRat (d : DecFloat) : ℚ :=
  (d.mant : ℚ) / (10 : ℚ) ^ d.exp

/-- Canonical decimal for mantissa `m`, fraction length `f` and decimal
exponent `e` (value `m * 10 ^ (e - f)`). -/
def scaleDF (m : Int) (f : Nat) (e : Int) : DecFloat :=
  if (f : Int) ≤ e then canonDF (m * (10 : Int) ^ (e - (f : Int)).toNat) 0
  else canonDF m (((f : Int) - e).toNat)

/-- Parse the decimal/scientific tokens accepted by Python `float(...)` as they
occur in theriak output: optional sign, integer digits, optional fraction,
optional exponent.  `none` is the raised `ValueError`. -/
def parseFloatCore (cs0 : List Char) : Option DecFloat :=
  let sgnCs : ℤ × List Char :=
    match cs0 with
    | '+' :: rest => (1, rest)
    | '-' :: rest => (-1, rest)
    | rest => (1, rest)
  let p1 := sgnCs.2.span Char.isDigit
  let fracRest : List Char × List Char :=
    match p1.2 with
    | '.' :: rest => rest.span Char.isDigit
    | _ => ([], p1.2)
  if p1.1.isEmpty && fracRest.1.isEmpty then none
  else
    let mant : ℤ := sgnCs.1 * (digitsVal (p1.1 ++ fracRest.1) 0 : ℤ)
    let f := fracRest.1.length
    match fracRest.2 with
    | [] => some (canonDF mant f)
    | 'e' :: es => (parseExp es).map (scaleDF mant f)
    | 'E' :: es => (parseExp es).map (scaleDF mant f)
    | _ => none

/-- Python `float(s)` on the tokens occurring in theriak output. -/
def parseFloat (s : String) : Option DecFloat :=
  parseFloatCore s.toList

/-- Python `s.replace("**", "  ")`: left-to-right, non-overlapping. -/
def replaceStarsCl : List Char → List Char
  | '*' :: '*' :: rest => ' ' :: ' ' :: replaceStarsCl rest
  | c :: rest => c :: replaceStarsCl rest
  | [] => []

/-- The fail-flag normalisation `string.replace("**", "  ")` of
`extract_solution_subblocks`. -/
def replaceFailMarks (s : String) : String :=
  String.mk (replaceStarsCl s.toList)

/-- The end-member line filter of `extract_solution_subblocks`:
`len(re.findall(r"\d\s\s$", line)) == 1`, i.e. the line's last three
characters are a digit followed by two whitespace characters. -/
def endmemberLine (l : String) : Bool :=
  match l.toList.reverse with
  | c1 :: c2 :: c3 :: _ => pyWs c1 && pyWs c2 && c3.isDigit
  | _ => false

/-- Python dict assignment `d[k] = v`: updates the value in place when the key
is present, otherwise appends (insertion order preserved). -/
def pyDictInsert {β : Type} (l : List (String × β)) (k : String) (v : β) :
    List (String × β) :=
  if (l.find? (fun p => p.1 == k)).isSome then
    l.map (fun p => if p.1 == k then (k, v) else p)
  else l ++ [(k, v)]

/-- Python `dict(pairs)`. -/
def pyDict {β : Type} (pairs : List (String × β)) : List (String × β) :=
  pairs.foldl (fun acc p => pyDictInsert acc p.1 p.2) []

/-- Python `d[k]` combined with `k in d.keys()`: lookup in an
insertion-ordered dict. -/
def lookupAssoc {β : Type} (l : List (String × β)) (k : String) : Option β :=
  (l.find? (fun p => p.1 == k)).map Prod.snd

/-! Marker strings, copied verbatim from `wrapper.py`. -/

def start_key_bulk : String := " composition:        N           N             mol%"

def end_key_bulk : String := " considered phases:"

def start_key_Gsys : String := " equilibrium assemblage:"

def end_key_Gsys : String := "         phase                   N         mol%                                   x              x         activity       act.(x)"

def start_key_phases : String := "         phase                   N         mol%                                   x              x         activity       act.(x)"

def end_key_phases : String := " volumes and densities of stable phases:"

def start_key_volume : String := " volumes and densities of stable phases:"

def end_key_volume : String := " compositions of stable phases [ mol% ]:"

def start_key_fluid : String := "  gases and fluids       N       volume/mol  volume[ccm]               wt/mol       wt [g]              density [g/ccm]"

def end_key_fluid : String := " H2O content of stable phases:"

def start_key_elements : String := " elements in stable phases:"

def end_key_elements : String := " elements per formula unit:"

def start_key_composition : String := " elements per formula unit:"

def end_key_composition : String := " activities of all phases:"

def start_key_deltaG : String := " activities of all phases:"

def end_key_deltaG : String := " chemical potentials of components:"

/-- The failure token of `TherCaller.check_minimisation`. -/
def substring_if_minimisation_fail : String := "activity test"

/-- The stable/metastable delimiter rule line of `Rock.add_deltaG`
(68 dashes, verbatim). -/
def deltaG_delimiter : String := "--------------------------------------------------------------------"

/-- The solution-entry marker of `extract_solution_subblocks`. -/
def solution_start_key : String := "   0"

/-- The line-overflow indentation (20 spaces) tested by `read_theriak`. -/
def overflow_indent : String := "                    "

/-- `TherCaller.output_block_finder`: locate the first lines equal to
`start_key` and `end_key`, return the block between them (minus 3 lines when
`end_with_subtitle`) and the residual starting at `end_key`.  `none` is the
`ValueError` raised by `list.index` when a marker is absent. -/
def output_block_finder (theriak_output : List String) (start_key end_key : String)
    (end_with_subtitle : Bool) : Option (List String × List String) :=
  match firstIdx start_key theriak_output, firstIdx end_key theriak_output with
  | some start_idx, some end_idx =>
    let block :=
      if end_with_subtitle then pySlice theriak_output (start_idx : Int) ((end_idx : Int) - 3)
      else pySlice theriak_output (start_idx : Int) (end_idx : Int)
    some (block, theriak_output.drop end_idx)
  | _, _ => none

/-- Line carrying the failure token, as tested inside
`extract_solution_subblocks`. -/
def hasFailToken (l : String) : Bool :=
  hasSubstr l "activity test:"

/-- Failed-minimisation normalisation inside `extract_solution_subblocks`:
truncate at the first line equal to `" "` and replace `"**"` by two spaces.
`none` is the `ValueError` of `solution_subblock.index(" ")`. -/
def normalizeFailed (sb : List String) : Option (List String) :=
  if sb.any hasFailToken then
    match firstIdx " " sb with
    | none => none
    | some cut => some ((sb.take cut).map replaceFailMarks)
  else some sb

/-- The end-member line filter applied to every sub-block. -/
def filterEndmember (sb : List String) : List String :=
  sb.filter endmemberLine

/-- Per-sub-block processing of `extract_solution_subblocks`
(normalisation, then the end-member line filter). -/
def processSubblock (sb : List String) : Option (List String) :=
  (normalizeFailed sb).map filterEndmember

/-- `TherCaller.extract_solution_subblocks`: cut the assemblage block at the
lines starting with `"   0"`, process every sub-block and key it by the third
token of its first retained line. -/
def extract_solution_subblocks (block_phases : List String) :
    Option (List (String × List String)) :=
  let start_indices :=
    (block_phases.enum.filter (fun p => pyStartsWith p.2 solution_start_key)).map Prod.fst
  let end_indices := start_indices.drop 1 ++ [block_phases.length]
  (start_indices.zip end_indices).foldlM
    (fun acc p => do
      let sb := (block_phases.take p.2).drop p.1
      let sb ← processSubblock sb
      let nameLine ← sb.get? 0
      let name ← (pySplit nameLine).get? 2
      pure (pyDictInsert acc name sb))
    []

/-- `TherCaller.check_minimisation`: `False` iff the failure token occurs in
the raw output. -/
def check_minimisation (theriak_output : String) : Bool :=
  if hasSubstr theriak_output substring_if_minimisation_fail then false else true

/-- `TherCaller.check_for_corrupted_bulk`, second regex `r"0.0+\)"` matched at
the head of the character list: `'0'`, any character except a line break, one
or more `'0'`, then `')'`. -/
def moreZerosClose : List Char → Bool
  | ')' :: _ => true
  | '0' :: rest => moreZerosClose rest
  | _ => false

/-- One-or-more `'0'` then `')'` (the `0+\)` tail of the second regex). -/
def zerosThenClose : List Char → Bool
  | '0' :: rest => moreZerosClose rest
  | _ => false

/-- The second regex `r"0.0+\)"` matched at the head position (the `.` is the
unescaped any-character). -/
def pat2At : List Char → Bool
  | '0' :: c :: rest => c != '\n' && zerosThenClose rest
  | _ => false

/-- The second regex matched anywhere; `re.findall` returns a non-empty list
iff some position matches. -/
def pat2Anywhere : List Char → Bool
  | [] => false
  | c :: rest => pat2At (c :: rest) || pat2Anywhere rest

/-- `TherCaller.check_for_corrupted_bulk`: `True` (valid) iff neither regex,
`r"\(0\)"` (the literal `"(0)"`) nor `r"0.0+\)"`, matches anywhere in the
bulk string. -/
def check_for_corrupted_bulk (bulk : String) : Bool :=
  if hasSubstr bulk "(0)" || pat2Anywhere bulk.toList then false else true

/-- First line of the block starting with the given prefix (the pattern
`[i for i in block if i.startswith(pre)][0]` used by the phase lookups);
`none` is the `IndexError` on an empty match list. -/
def find_startswith (pre : String) (block : List String) : Option String :=
  (block.filter (fun l => pyStartsWith l pre)).head?

/-- `Phase.add_composition_apfu`: line starting with one space plus the name;
with overflow, the immediately following line is appended; the first (name)
and last (test column) tokens are dropped and the rest parsed as floats. -/
def add_composition_apfu (block_composition : List String) (temp_name : String)
    (output_line_overflow : Bool) : Option (List DecFloat) := do
  let line ← find_startswith (" " ++ temp_name) block_composition
  let t := pySplit line
  let t ←
    if output_line_overflow then do
      let idx ← firstIdx line block_composition
      let addl ← block_composition.get? (idx + 1)
      pure (t ++ pySplit addl)
    else pure t
  ((t.drop 1).dropLast).mapM parseFloat

/-- `Phase.add_composition_moles` (same layout as the per-formula-unit
table, read from `block_elements`). -/
def add_composition_moles (block_elements : List String) (temp_name : String)
    (output_line_overflow : Bool) : Option (List DecFloat) := do
  let line ← find_startswith (" " ++ temp_name) block_elements
  let t := pySplit line
  let t ←
    if output_line_overflow then do
      let idx ← firstIdx line block_elements
      let addl ← block_elements.get? (idx + 1)
      pure (t ++ pySplit addl)
    else pure t
  ((t.drop 1).dropLast).mapM parseFloat

/-- `Mineral.add_phase_properties`: `(n, vol, vol_percent, density)` from the
line of `block_volume` starting with two spaces plus the name. -/
def mineral_phase_properties (block_volume : List String) (temp_name : String) :
    Option (DecFloat × DecFloat × DecFloat × DecFloat) := do
  let line ← find_startswith ("  " ++ temp_name) block_volume
  let t := pySplit line
  let nS ← t.get? 1
  let n ← parseFloat nS
  let volS ← t.get? 3
  let vol ← parseFloat volS
  let volpS ← t.get? 4
  let volp ← parseFloat volpS
  let densS ← pyGet t (-1)
  let dens ← parseFloat densS
  pure (n, vol, volp, dens)

/-- `Fluid.add_phase_properties`: `(n, vol, density)` from the line of
`block_fluid` starting with two spaces plus the name. -/
def fluid_phase_properties (block_fluid : List String) (temp_name : String) :
    Option (DecFloat × DecFloat × DecFloat) := do
  let line ← find_startswith ("  " ++ temp_name) block_fluid
  let t := pySplit line
  let nS ← t.get? 1
  let n ← parseFloat nS
  let volS ← t.get? 3
  let vol ← parseFloat volS
  let densS ← pyGet t (-1)
  let dens ← parseFloat densS
  pure (n, vol, dens)

/-- `Phase.add_endmember_properties`: drop the five leading tokens of the
first line, then map each line's first token to its third-from-last token
(fraction) and second-from-last token (activity). -/
def add_endmember_properties (solution_phase_subblock : List String) :
    Option (List (String × DecFloat) × List (String × DecFloat)) := do
  let lines := solution_phase_subblock.map pySplit
  let first ← lines.get? 0
  let lines := (first.drop 5) :: lines.drop 1
  lines.foldlM
    (fun acc t => do
      let name ← t.get? 0
      let aS ← pyGet t (-2)
      let a ← parseFloat aS
      let fS ← pyGet t (-3)
      let f ← parseFloat fS
      pure (pyDictInsert acc.1 name a, pyDictInsert acc.2 name f))
    ([], [])

/-- One stable solid phase of the model (`Mineral(Phase)` in the source;
absent end-member attributes of a pure phase are modelled as `[]`). -/
structure Mineral where
  name : String
  n : DecFloat
  vol : DecFloat
  vol_percent : DecFloat
  density : DecFloat
  composition_apfu : List DecFloat
  composition_moles : List DecFloat
  solution_phase : Bool
  endmember_activities : List (String × DecFloat)
  endmember_fractions : List (String × DecFloat)
deriving DecidableEq, Inhabited

/-- One stable fluid phase of the model (`Fluid(Phase)` in the source). -/
structure Fluid where
  name : String
  n : DecFloat
  vol : DecFloat
  density : DecFloat
  composition_apfu : List DecFloat
  composition_moles : List DecFloat
  solution_phase : Bool
  endmember_activities : List (String × DecFloat)
  endmember_fractions : List (String × DecFloat)
deriving DecidableEq, Inhabited

/-- Body of the `Rock.add_minerals` loop for one temporary phase name. -/
def mkMineral (block_volume : List String) (block_solutions : List (String × List String))
    (block_composition block_elements : List String) (output_line_overflow : Bool)
    (temp_name : String) : Option Mineral := do
  let props ← mineral_phase_properties block_volume temp_name
  let apfu ← add_composition_apfu block_composition temp_name output_line_overflow
  let moles ← add_composition_moles block_elements temp_name output_line_overflow
  match lookupAssoc block_solutions temp_name with
  | some sb => do
      let em ← add_endmember_properties sb
      pure ⟨temp_name, props.1, props.2.1, props.2.2.1, props.2.2.2, apfu, moles, true, em.1, em.2⟩
  | none =>
      pure ⟨temp_name, props.1, props.2.1, props.2.2.1, props.2.2.2, apfu, moles, false, [], []⟩

/-- `Rock.get_mineral_list`: names are the first tokens of
`block_volume[5 : end_idx]` where `end_idx` is one less than the index of the
first line starting with `"  total of solids"`. -/
def get_mineral_list (block_volume : List String) : Option (List String) := do
  let end_entry ← (block_volume.filter (fun l => pyStartsWith l "  total of solids")).head?
  let eidx ← firstIdx end_entry block_volume
  let name_lines := pySlice block_volume (5 : Int) ((eidx : Int) - 1)
  name_lines.mapM (fun l => (pySplit l).get? 0)

/-- `Rock.add_minerals`: assemble one `Mineral` per temporary name, in report
order. -/
def add_minerals (block_volume : List String) (block_solutions : List (String × List String))
    (block_composition block_elements : List String) (output_line_overflow : Bool) :
    Option (List Mineral) := do
  let temp_name_list ← get_mineral_list block_volume
  temp_name_list.mapM
    (mkMineral block_volume block_solutions block_composition block_elements output_line_overflow)

/-- `Rock.get_fluid_list`: first tokens of `block_fluid[2:]`. -/
def get_fluid_list (block_fluid : List String) : Option (List String) :=
  (block_fluid.drop 2).mapM (fun l => (pySplit l).get? 0)

/-- Body of the `Rock.add_fluids` loop for one fluid name. -/
def mkFluid (block_fluid : List String) (block_solutions : List (String × List String))
    (block_composition block_elements : List String) (output_line_overflow : Bool)
    (fluid_name : String) : Option Fluid := do
  let props ← fluid_phase_properties block_fluid fluid_name
  let apfu ← add_composition_apfu block_composition fluid_name output_line_overflow
  let moles ← add_composition_moles block_elements fluid_name output_line_overflow
  match lookupAssoc block_solutions fluid_name with
  | some sb => do
      let em ← add_endmember_properties sb
      pure ⟨fluid_name, props.1, props.2.1, props.2.2, apfu, moles, true, em.1, em.2⟩
  | none =>
      pure ⟨fluid_name, props.1, props.2.1, props.2.2, apfu, moles, false, [], []⟩

/-- `Rock.add_fluids`. -/
def add_fluids (block_fluid : List String) (block_solutions : List (String × List String))
    (block_composition block_elements : List String) (output_line_overflow : Bool) :
    Option (List Fluid) := do
  let fluid_name_list ← get_fluid_list block_fluid
  fluid_name_list.mapM
    (mkFluid block_fluid block_solutions block_composition block_elements output_line_overflow)

/-- `Rock.add_bulk_rock_composition`: per data row (after the three title
rows) the third token is moles and the fifth is mol percent. -/
def add_bulk_rock_composition (block_bulk : List String) : Option (List DecFloat × List DecFloat) := do
  let rows := block_bulk.drop 3
  let molesS ← rows.mapM (fun l => (pySplit l).get? 2)
  let moles ← molesS.mapM parseFloat
  let pctS ← rows.mapM (fun l => (pySplit l).get? 4)
  let pct ← pctS.mapM parseFloat
  pure (moles, pct)

/-- `Rock.add_g_system`: sixth token of the eighth line of the block. -/
def add_g_system (block_Gsys : List String) : Option DecFloat := do
  let line ← block_Gsys.get? 7
  let t ← (pySplit line).get? 5
  parseFloat t

/-- `Rock.add_bulk_density`: last token of the first line starting with
`"  total of solids"`. -/
def add_bulk_density (block_volume : List String) : Option DecFloat := do
  let line ← (block_volume.filter (fun l => pyStartsWith l "  total of solids")).head?
  let t ← pyGet (pySplit line) (-1)
  parseFloat t

/-- `Rock.add_deltaG`: drop five title rows, find the delimiter rule line,
keep the rows after it starting with `" S"` or `" P"`, map each row's third
token to the float after the first `"0.00000E+00"` token, and build the
Python dict of these pairs. -/
def add_deltaG (block_deltaG : List String) : Option (List (String × DecFloat)) := do
  let bd := block_deltaG.drop 5
  let delim ← firstIdx deltaG_delimiter bd
  let bd2 := bd.drop (delim + 1)
  let metastable_list :=
    (bd2.filter (fun l => pyStartsWith l " S" || pyStartsWith l " P")).map pySplit
  let idx_of_firstZEROS ← metastable_list.mapM (fun t => firstIdx "0.00000E+00" t)
  let names ← metastable_list.mapM (fun t => t.get? 2)
  let deltaStrs ← (metastable_list.zip idx_of_firstZEROS).mapM (fun p => p.1.get? (p.2 + 1))
  let deltas ← deltaStrs.mapM parseFloat
  pure (pyDict (names.zip deltas))

/-- The extracted blocks of one theriak report (`blocks` dict of
`read_theriak`). -/
structure Blocks where
  block_bulk : List String
  block_Gsys : List String
  block_phases : List String
  block_solutions : List (String × List String)
  block_volume : List String
  block_fluid : List String
  block_elements : List String
  block_composition : List String
  block_deltaG : List String
deriving DecidableEq, Inhabited

/-- The guarded fluid-block extraction of `read_theriak` (the
`try/except ValueError`): on failure the state is `false`, the block is empty
and the residual is left untouched. -/
def fluid_block_step (residual : List String) : Bool × List String × List String :=
  match output_block_finder residual start_key_fluid end_key_fluid true with
  | some (bf, r) => (true, bf, r)
  | none => (false, [], residual)

/-- `TherCaller.read_theriak`: split the raw output into lines and extract the
blocks in report order, each extraction consuming the previous residual (the
volume-block residual is discarded; the fluid step is guarded).  Returns
`(blocks, element_list, output_line_overflow, fluids_stable)`. -/
def read_theriak (theriak_output : String) :
    Option (Blocks × List String × Bool × Bool) := do
  let lines := pySplitlines theriak_output
  let (block_bulk, r1) ← output_block_finder lines start_key_bulk end_key_bulk true
  let (block_Gsys, r2) ← output_block_finder r1 start_key_Gsys end_key_Gsys false
  let (block_phases, r3) ← output_block_finder r2 start_key_phases end_key_phases true
  let (block_volume, _r4) ← output_block_finder r3 start_key_volume end_key_volume true
  let fs := fluid_block_step r3
  let (block_elements, r6) ← output_block_finder fs.2.2 start_key_elements end_key_elements false
  let (block_composition, r7) ←
    output_block_finder r6 start_key_composition end_key_composition true
  let (block_deltaG, _r8) ← output_block_finder r7 start_key_deltaG end_key_deltaG true
  let solution_subblocks ← extract_solution_subblocks block_phases
  let lastLine ← block_composition.getLast?
  let output_line_overflow := pyStartsWith lastLine overflow_indent
  let elemLine ← block_elements.get? 3
  let el0 := pySplit elemLine
  let el1 ←
    if output_line_overflow then do
      let l2 ← block_elements.get? 4
      pure (el0 ++ pySplit l2)
    else pure el0
  pure (⟨block_bulk, block_Gsys, block_phases, solution_subblocks, block_volume,
         fs.2.1, block_elements, block_composition, block_deltaG⟩,
        el1.dropLast, output_line_overflow, fs.1)

/-- The `Rock` aggregate (thermodynamic state attributes of the source class;
`g_system_per_mol_of_input` uses exact rational division, which agrees with
the source everywhere the divisor is non-zero). -/
structure Rock where
  pressure : ℤ
  temperature : ℤ
  therin_PT : String
  therin_bulk : String
  bulk_composition_moles : List DecFloat
  bulk_composition_mol_percent : List DecFloat
  g_system : DecFloat
  bulk_density : DecFloat
  mineral_assemblage : List Mineral
  fluid_assemblage : List Fluid
  mineral_delta_G : List (String × DecFloat)
  g_system_per_mol_of_input : ℚ
deriving DecidableEq

/-- `TherCaller.create_rock`: populate the rock in the source's fixed order;
`add_fluids` runs only when `fluids_stable`. -/
def create_rock (pressure temperature : ℤ) (therin_PT therin_bulk : String)
    (blocks : Blocks) (output_line_overflow fluids_stable : Bool) : Option Rock := do
  let bulk ← add_bulk_rock_composition blocks.block_bulk
  let g ← add_g_system blocks.block_Gsys
  let dens ← add_bulk_density blocks.block_volume
  let minerals ← add_minerals blocks.block_volume blocks.block_solutions
    blocks.block_composition blocks.block_elements output_line_overflow
  let fluids ←
    if fluids_stable then
      add_fluids blocks.block_fluid blocks.block_solutions
        blocks.block_composition blocks.block_elements output_line_overflow
    else pure []
  let dG ← add_deltaG blocks.block_deltaG
  pure ⟨pressure, temperature, therin_PT, therin_bulk, bulk.1, bulk.2, g, dens,
        minerals, fluids, dG, g.toRat / (bulk.1.map DecFloat.toRat).sum⟩

/-- Result of `TherCaller.minimisation`: either the untouched raw report with
an empty element list (failed minimisation without override) or the assembled
rock with the element list. -/
inductive MinimisationResult where
  | failed (raw : String) (element_list : List String)
  | success (rock : Rock) (element_list : List String)
deriving DecidableEq

/-- `TherCaller.minimisation` after the external theriak call: check the
status (overridden by `return_failed_minimisation`), then either run
`read_theriak` and `create_rock` or return the raw output with an empty list.
`none` is an exception escaping `read_theriak`/`create_rock`. -/
def minimisation (theriak_output : String) (return_failed_minimisation : Bool)
    (pressure temperature : ℤ) (therin_PT therin_bulk : String) :
    Option MinimisationResult :=
  let state := check_minimisation theriak_output
  let state := if return_failed_minimisation then true else state
  if state then
    match read_theriak theriak_output with
    | none => none
    | some (blocks, element_list, ovf, fls) =>
      match create_rock pressure temperature therin_PT therin_bulk blocks ovf fls with
      | none => none
      | some rock => some (.success rock element_list)
  else some (.failed theriak_output [])

/-! Concrete data: the three literal blocks of `tests/test_wrapper.py`. -/

def tw_block_volume : List String := [
  " volumes and densities of stable phases:",
  " ---------------------------------------",
  "",
  "  solid phases           N       volume/mol  volume[ccm]    vol%  |    wt/mol       wt [g]      wt %  | density [g/ccm]",
  "  ------------                                                    |                                   |                ",
  "  PLC1_abh             4.5568     101.0292     460.3719   18.6276 |   263.3673    1200.1176   17.0845 |     2.606844",
  "  WM02V_mu             6.9877     140.3973     981.0603   39.6957 |   399.4503    2791.2564   39.7354 |     2.845143",
  "  GTT01_gr             0.0581     121.7314       7.0783    0.2864 |   472.0965      27.4510    0.3908 |     3.878183",
  "  BI05_ann             0.3682     152.5480      56.1744    2.2729 |   478.8624     176.3368    2.5103 |     3.139094",
  "  CHL_daph             1.5982     212.9668     340.3604   13.7717 |   666.7608    1065.6075   15.1696 |     3.130821",
  "  q                   20.4768      22.8894     468.7023   18.9646 |    60.0843    1230.3350   17.5146 |     2.624982",
  "  sph                  0.9253      55.8222      51.6549    2.0901 |   196.0405     181.4055    2.5824 |     3.511876",
  "  cz                   0.7749     136.8505     106.0522    4.2911 |   454.3573     352.1037    5.0124 |     3.320099",
  "                                             ----------  -------- |              ----------  -------- |   ----------",
  "  total of solids                             2471.4548  100.0000 |               7024.6136  100.0000 |     2.842299",
  " ",
  "",
  "  gases and fluids       N       volume/mol  volume[ccm]               wt/mol       wt [g]              density [g/ccm]",
  "  ----------------                                                                                                     ",
  "  H2O                 35.8638      18.6578      669.138                18.0153     646.0963                 0.965565",
  "",
  "",
  " -----------------------------",
  " H2O content of stable phases:",
  " -----------------------------",
  "                                                                  |   wt% of     wt% of     wt% of",
  "  solid phases           N      H2O[pfu]    H2O[mol]     H2O [g]  |   phase      solids     H2O.solid",
  "  ------------                                                    |",
  "  WM02V_mu             6.9877     1.000       6.9877     125.8862 |   4.51002    1.79207    49.4316",
  "  BI05_ann             0.3682     1.000       0.3682       6.6340 |   3.76210    0.09444     2.6050",
  "  CHL_daph             1.5982     4.000       6.3927     115.1670 |  10.80764    1.63948    45.2225",
  "  cz                   0.7749     0.500       0.3875       6.9805 |   1.98250    0.09937     2.7410",
  "                                            --------   ---------- |             --------",
  "  total H2O in solids                        14.1362     254.6677 |              3.62536",
  " ",
  "                                                                  |   wt% of",
  "  gases and fluids       N      H2O[pfu]    H2O[mol]     H2O [g]  |   phase",
  "  ----------------                                                |",
  "  H2O                 35.8638     1.000      35.8638     646.0963 | 100.00000"]

def tw_block_composition : List String := [
  " elements per formula unit:",
  " ",
  " PLC1_abh            8.000000   1.066655   0.066655   0.000000   0.000000   0.004895   0.000000   0.000000   0.928450   2.933345",
  "                     0.000000   0.000000",
  " WM02V_mu           12.000000   2.666946   0.000000   0.102160   2.000000   0.900069   0.000000   0.059424   0.090046   3.171469",
  "                     0.000000   0.000000",
  " GTT01_gr           12.000000   2.000000   1.565363   0.695636   0.000000   0.000000   0.729346   0.009655   0.000000   3.000000",
  "                     0.000000   0.000000",
  " BI05_ann           12.000000   1.051688   0.000000   1.926930   2.000000   1.000000   0.026499   0.941144   0.000000   2.974156",
  "                     0.039792   0.000000",
  " CHL_daph           18.000000   2.024227   0.000000   3.463994   8.000000   0.000000   0.054958   1.468935   0.000000   2.987887",
  "                     0.000000   0.000000",
  " H2O                 1.000000   0.000000   0.000000   0.000000   2.000000   0.000000   0.000000   0.000000   0.000000   0.000000",
  "                     0.000000   0.000000",
  " q                   2.000000   0.000000   0.000000   0.000000   0.000000   0.000000   0.000000   0.000000   0.000000   1.000000",
  "                     0.000000   0.000000",
  " sph                 5.000000   0.000000   1.000000   0.000000   0.000000   0.000000   0.000000   0.000000   0.000000   1.000000",
  "                     1.000000   0.000000",
  " cz                 13.000000   3.000000   2.000000   0.000000   1.000000   0.000000   0.000000   0.000000   0.000000   3.000000",
  "                     0.000000   0.000000"]

def tw_block_elements : List String := [
  " elements in stable phases:",
  " --------------------------",
  "",
  "                      O          AL         CA         FE         H          K          MN         MG         NA         SI   ",
  "                      TI         E    ",
  " PLC1_abh           36.454569   4.860555   0.303734   0.000000   0.000000   0.022305   0.000000   0.000000   4.230782  13.366730",
  "                     0.000000   0.000000",
  " WM02V_mu           83.852935  18.635939   0.000000   0.713871  13.975489   6.289454   0.000000   0.415240   0.629218  22.161418",
  "                     0.000000   0.000000",
  " GTT01_gr            0.697765   0.116294   0.091021   0.040449   0.000000   0.000000   0.042409   0.000561   0.000000   0.174441",
  "                     0.000000   0.000000",
  " BI05_ann            4.418892   0.387275   0.000000   0.709575   0.736482   0.368241   0.009758   0.346568   0.000000   1.095206",
  "                     0.014653   0.000000",
  " CHL_daph           28.767342   3.235090   0.000000   5.536105  12.785485   0.000000   0.087833   2.347631   0.000000   4.775197",
  "                     0.000000   0.000000",
  " H2O                35.863797   0.000000   0.000000   0.000000  71.727594   0.000000   0.000000   0.000000   0.000000   0.000000",
  "                     0.000000   0.000000",
  " q                  40.953627   0.000000   0.000000   0.000000   0.000000   0.000000   0.000000   0.000000   0.000000  20.476813",
  "                     0.000000   0.000000",
  " sph                 4.626735   0.000000   0.925347   0.000000   0.000000   0.000000   0.000000   0.000000   0.000000   0.925347",
  "                     0.925347   0.000000",
  " cz                 10.074338   2.324847   1.549898   0.000000   0.774949   0.000000   0.000000   0.000000   0.000000   2.324847",
  "                     0.000000   0.000000",
  " total:            245.710000  29.560000   2.870000   7.000000 100.000000   6.680000   0.140000   3.110000   4.860000  65.300000",
  "                     0.940000   0.000000",
  ""]

/-! Specification-side definitions (compared against the embedded code). -/

/-- Specification reading of one metastable row from its token list (claim
C8): the row's name is its third token and its energy is the float parsed
from the token immediately following the first occurrence of the literal
zero-sentinel token `"0.00000E+00"`. -/
def specTokEntry (t : List String) : Option (String × DecFloat) := do
  let name ← t.get? 2
  let i ← firstIdx "0.00000E+00" t
  let v ← t.get? (i + 1)
  let q ← parseFloat v
  pure (name, q)

/-- Specification reading of one metastable row (claim C8). -/
def specRowEntry (line : String) : Option (String × DecFloat) :=
  specTokEntry (pySplit line)

/-- Specification reading of the metastable energy table (claim C8): discard
the five title rows, locate the delimiter rule line, and read exactly the
rows after it whose line begins with `" S"` or `" P"` — no row above the
delimiter is included. -/
def metastableTableSpec (block_deltaG : List String) :
    Option (List (String × DecFloat)) := do
  let bd := block_deltaG.drop 5
  let delim ← firstIdx deltaG_delimiter bd
  ((bd.drop (delim + 1)).filter
      (fun l => pyStartsWith l " S" || pyStartsWith l " P")).mapM specRowEntry

/-- Bulk strings in the THERIN format per the `call_theriak` docstring:
element symbols in capital letters, each followed by its molar amount in
brackets, e.g. `"SI(10.0)AL(2)"`.  The fuel argument bounds the recursion by
the string length. -/
def parseTherinBulkAux : Nat → List Char → Option (List (String × DecFloat))
  | _, [] => some []
  | 0, _ :: _ => none
  | fuel + 1, cs =>
    let p1 := cs.span (fun c => 'A' ≤ c && c ≤ 'Z')
    if p1.1.isEmpty then none
    else
      match p1.2 with
      | '(' :: r2 =>
        let p2 := r2.span (fun c => c != ')')
        match p2.2 with
        | ')' :: r4 =>
          match parseFloatCore p2.1 with
          | none => none
          | some q => (parseTherinBulkAux fuel r4).map (fun tl => (String.mk p1.1, q) :: tl)
        | _ => none
      | _ => none

/-- Parse a THERIN bulk string into its element/amount pairs. -/
def parseTherinBulk (s : String) : Option (List (String × DecFloat)) :=
  parseTherinBulkAux s.length s.toList

/-! Concrete data for the counterexamples and witnesses. -/

/-- A trivial one-entry sub-block of a pure phase `q` carrying the
entry-zero marker, whose single end-member line names the phase itself. -/
def c5_line : String :=
  "   0  P  q                 20.476813   47.5690     q         1.000000  1.000000       1.000000       1.000000  "

/-- Volume-block line for the pure phase `q`. -/
def c5_bv : List String :=
  ["  q                   20.4768      22.8894     468.7023   18.9646     2.624982"]

/-- Composition-block line for the pure phase `q`. -/
def c5_bc : List String :=
  [" q                   2.000000   1.000000   0.000000"]

/-- Elements-block line for the pure phase `q`. -/
def c5_be : List String :=
  [" q                  40.953627  20.476813   0.000000"]

/-- The mineral assembled for `q` when its trivial sub-block is a key. -/
def c5_min : Mineral :=
  (mkMineral c5_bv [("q", [c5_line])] c5_bc c5_be false "q").getD default

/-- A miniature but complete theriak report without the gases-and-fluids
marker line, used to witness claim C7. -/
def c7_lines : List String :=
  [" composition:        N           N             mol%",
   " x1",
   " x2",
   "  SI   1   2.0000   3   50.0000",
   "  AL   1   2.0000   3   50.0000",
   " b1",
   " b2",
   " b3",
   " considered phases:",
   " equilibrium assemblage:",
   " g1",
   " g2",
   " g3",
   " g4",
   " g5",
   " g6",
   "  G(System)  =  x  x  x  -12345.67",
   "         phase                   N         mol%                                   x              x         activity       act.(x)",
   "   0  E  SOLN             1.000000   50.000000    em1       0.500000  0.500000       0.500000       0.500000  ",
   " p1",
   " p2",
   " p3",
   " volumes and densities of stable phases:",
   " v1",
   " v2",
   " v3",
   " v4",
   "  q                   20.4768      22.8894     468.7023   18.9646     2.624982",
   "  dashline",
   "  total of solids    x    2471.45   100.00   2.842299",
   " w1",
   " w2",
   " w3",
   " compositions of stable phases [ mol% ]:",
   " elements in stable phases:",
   " e1",
   " e2",
   "                      O          SI         E   ",
   " q                  40.953627  20.476813   0.000000",
   " elements per formula unit:",
   " c1",
   " q                   2.000000   1.000000   0.000000",
   " c2",
   " c3",
   " c4",
   " activities of all phases:",
   " d1",
   " d2",
   " d3",
   " d4",
   "--------------------------------------------------------------------",
   " S   1  meta1   0.00000E+00   55.5",
   " z1",
   " z2",
   " z3",
   " chemical potentials of components:"]

/-- The C7 witness report as one raw string. -/
def c7_report : String :=
  String.intercalate "\n" c7_lines

/-- The parse of the C7 witness report. -/
def c7_res : Blocks × List String × Bool × Bool :=
  (read_theriak c7_report).getD default

/-- A raw report carrying the failure token, for the C2 witness. -/
def c2_raw : String :=
  "minimisation report ** activity test: wrong"

/-- A failed-minimisation sub-block: one end-member line with fail flags, a
blank line, then the activity-test line. -/
def c4_sb : List String :=
  ["   0  1  FSP  1.0  2.0  ab  **0.912345  0.912345  0.912345  0.9  ",
   " ",
   "** activity test: ab"]

/-- A miniature activities block for the C8 witness: two metastable rows
below the delimiter, one ignored row, and rows above the delimiter. -/
def c8_block : List String :=
  [" activities of all phases:",
   " t1",
   " t2",
   " S   0  stable_above   0.00000E+00   99.9",
   " t3",
   "--------------------------------------------------------------------",
   " S   1  forsterite   1.0   0.00000E+00   123.45",
   " x ignored row",
   " P   2  qz   0.5   0.1   0.00000E+00   -7.5"]

/-- The metastable table read from `c8_block`. -/
def c8_tbl : List (String × DecFloat) :=
  [("forsterite", 123.45), ("qz", -7.5)]

/-! General lemmas about the embedded primitives. -/

theorem firstIdx_eq_some (key : String) (l : List String) (i : Nat)
    (h1 : l.get? i = some key) (h2 : ∀ j, j < i → l.get? j ≠ some key) :
    firstIdx key l = some i := by
  induction l generalizing i with
  | nil => simp at h1
  | cons a as ih =>
    cases i with
    | zero =>
      simp only [List.get?] at h1
      obtain rfl : a = key := by injection h1
      simp [firstIdx]
    | succ n =>
      have ha : a ≠ key := by
        intro hak
        exact h2 0 (Nat.succ_pos n) (by simp [List.get?, hak])
      have h1' : as.get? n = some key := h1
      have h2' : ∀ j, j < n → as.get? j ≠ some key := by
        intro j hj
        exact h2 (j + 1) (Nat.succ_lt_succ hj)
      simp [firstIdx, ha, ih n h1' h2']

theorem firstIdx_eq_none (key : String) (l : List String) (h : key ∉ l) :
    firstIdx key l = none := by
  induction l with
  | nil => rfl
  | cons a as ih =>
    have ha : a ≠ key := fun hak => h (by simp [hak])
    have has : key ∉ as := fun hk => h (List.mem_cons_of_mem _ hk)
    simp [firstIdx, ha, ih has]

theorem take_min_length {α : Type} (l : List α) (b : Nat) :
    l.take (min b l.length) = l.take b := by
  rcases Nat.le_total b l.length with h | h
  · rw [Nat.min_eq_left h]
  · rw [Nat.min_eq_right h, List.take_length, List.take_of_length_le h]

theorem drop_min_length {α : Type} (l : List α) (a : Nat) :
    l.drop (min a l.length) = l.drop a := by
  rcases Nat.le_total a l.length with h | h
  · rw [Nat.min_eq_left h]
  · rw [Nat.min_eq_right h, List.drop_length, List.drop_eq_nil_of_le h]

theorem pySlice_ofNat {α : Type} (l : List α) (a b : Nat) :
    pySlice l (a : Int) (b : Int) = (l.take b).drop a := by
  have ha : pyBound l.length (a : Int) = min a l.length := by
    simp [pyBound]
  have hb : pyBound l.length (b : Int) = min b l.length := by
    simp [pyBound]
  rw [pySlice, ha, hb, take_min_length]
  have hlen : (l.take b).length ≤ l.length := by
    rw [List.length_take]
    omega
  rcases Nat.le_total a l.length with h | h
  · rw [Nat.min_eq_left h]
  · rw [Nat.min_eq_right h, List.drop_eq_nil_of_le hlen,
      List.drop_eq_nil_of_le (le_trans hlen h)]

theorem mem_take_get? {α : Type} (l : List α) (n : Nat) (x : α) (h : x ∈ l.take n) :
    ∃ k, k < n ∧ l.get? k = some x := by
  induction l generalizing n with
  | nil => simp at h
  | cons a as ih =>
    cases n with
    | zero => simp at h
    | succ m =>
      rw [List.take_succ_cons] at h
      rcases List.mem_cons.mp h with rfl | h'
      · exact ⟨0, Nat.succ_pos m, rfl⟩
      · obtain ⟨k, hk, hg⟩ := ih m h'
        exact ⟨k + 1, Nat.succ_lt_succ hk, hg⟩

theorem head?_drop_eq_get? {α : Type} (l : List α) (n : Nat) :
    (l.drop n).head? = l.get? n := by
  induction l generalizing n with
  | nil => simp
  | cons a as ih =>
    cases n with
    | zero => simp
    | succ m =>
      rw [List.drop_succ_cons]
      exact ih m

theorem get?_take_lt {α : Type} (l : List α) (m n : Nat) (h : m < n) :
    (l.take n).get? m = l.get? m := by
  induction l generalizing m n with
  | nil => simp
  | cons a as ih =>
    cases n with
    | zero => omega
    | succ k =>
      cases m with
      | zero => simp
      | succ j =>
        rw [List.take_succ_cons]
        simp only [List.get?]
        exact ih j k (Nat.lt_of_succ_lt_succ h)

theorem output_block_finder_residual (report b r : List String) (sk ek : String) (t : Bool)
    (h : output_block_finder report sk ek t = some (b, r)) : ∃ n, r = report.drop n := by
  unfold output_block_finder at h
  rcases hs : firstIdx sk report with _ | i <;> rw [hs] at h <;>
    rcases he : firstIdx ek report with _ | j <;> rw [he] at h <;> simp at h
  exact ⟨j, h.2.symm⟩

theorem fluid_block_step_absent (residual : List String)
    (h : start_key_fluid ∉ residual) : fluid_block_step residual = (false, [], residual) := by
  rw [fluid_block_step, output_block_finder, firstIdx_eq_none _ _ h]

theorem lookupAssoc_eq_none_iff {β : Type} (l : List (String × β)) (k : String) :
    lookupAssoc l k = none ↔ k ∉ l.map Prod.fst := by
  rw [lookupAssoc, Option.map_eq_none', List.find?_eq_none]
  constructor
  · intro h hk
    obtain ⟨p, hp, hfst⟩ := List.mem_map.mp hk
    exact h p hp (by simp [hfst])
  · intro h p hp hpk
    exact h (List.mem_map.mpr ⟨p, hp, by simpa using hpk⟩)

theorem lookupAssoc_some_mem {β : Type} (l : List (String × β)) (k : String) (v : β)
    (h : lookupAssoc l k = some v) : k ∈ l.map Prod.fst := by
  rw [lookupAssoc, Option.map_eq_some'] at h
  obtain ⟨p, hp, _⟩ := h
  have hmem := List.mem_of_find?_eq_some hp
  have hpk := List.find?_some hp
  simp only [beq_iff_eq] at hpk
  exact List.mem_map.mpr ⟨p, hmem, hpk⟩

theorem optBind_eq_some {α β : Type} (x : Option α) (f : α → Option β) (b : β) :
    (x >>= f) = some b ↔ ∃ a, x = some a ∧ f a = some b := by
  cases x <;> simp

/-! Claim theorems. -/

set_option maxRecDepth 10000

/-- Evaluation of `output_block_finder` at the first marker indices
(shared helper for the block-extraction claims). -/
theorem output_block_finder_eval (report : List String) (sk ek : String) (trim : Bool)
    (i j : Nat)
    (hsi : report.get? i = some sk) (hsf : ∀ k, k < i → report.get? k ≠ some sk)
    (hei : report.get? j = some ek) (hef : ∀ k, k < j → report.get? k ≠ some ek) :
    output_block_finder report sk ek trim =
      some ((if trim then pySlice report (i : Int) ((j : Int) - 3)
             else (report.take j).drop i),
            report.drop j) := by
  rw [output_block_finder, firstIdx_eq_some sk report i hsi hsf,
    firstIdx_eq_some ek report j hei hef]
  cases trim with
  | false => simp [pySlice_ofNat]
  | true => simp

/-- Claim C1: given the literal volumes, composition and elements blocks of
the test suite with `output_line_overflow = true`, `Rock.add_minerals`
produces exactly the mineral names
`PLC1_abh, WM02V_mu, GTT01_gr, BI05_ann, CHL_daph, q, sph, cz` in that order,
and the mineral `BI05_ann` has the claimed per-formula-unit and molar
composition vectors. -/
theorem C1_add_minerals_benchmark :
    (add_minerals tw_block_volume [] tw_block_composition tw_block_elements true).map
        (fun ms => ms.map Mineral.name) =
      some ["PLC1_abh", "WM02V_mu", "GTT01_gr", "BI05_ann", "CHL_daph", "q", "sph", "cz"] ∧
    (add_minerals tw_block_volume [] tw_block_composition tw_block_elements true).bind
        (fun ms => (ms.filter (fun m => m.name == "BI05_ann")).head?.map
          (fun m => (m.composition_apfu, m.composition_moles))) =
      some ([12.0, 1.051688, 0.0, 1.92693, 2.0, 1.0, 0.026499, 0.941144, 0.0, 2.974156, 0.039792],
            [4.418892, 0.387275, 0.0, 0.709575, 0.736482, 0.368241, 0.009758, 0.346568, 0.0, 1.095206, 0.014653]) := by
  decide

/-- Claim C2: `check_minimisation` reports `False` iff the raw report
contains the failure token, and on a failed report without the
`return_failed_minimisation` override, `minimisation` returns the untouched
raw report with an empty element list (no exception: the result is `some`).
-/
theorem C2_failed_minimisation_path (s : String) (P T : ℤ) (pt bk : String) :
    (check_minimisation s = false ↔ hasSubstr s substring_if_minimisation_fail = true) ∧
    (check_minimisation s = false →
      minimisation s false P T pt bk = some (.failed s [])) := by
  constructor
  · cases h : hasSubstr s substring_if_minimisation_fail <;> simp [check_minimisation, h]
  · intro h
    simp [minimisation, h]

/-- Witness for C2 at a concrete failed report. -/
theorem C2_witness :
    check_minimisation c2_raw = false ∧
    minimisation c2_raw false 0 0 "" "" = some (.failed c2_raw []) :=
  ⟨by decide, (C2_failed_minimisation_path c2_raw 0 0 "" "").2 (by decide)⟩

/-- Claim C3: when `i` and `j` are the first indices of lines exactly equal
to the start and end markers, `output_block_finder` returns the block
`report[i : j]` (`report[i : j - 3]` with `trim_subtitle`, Python slice
semantics) together with the residual `report[j :]`. -/
theorem C3_block_and_residual (report : List String) (sk ek : String) (trim : Bool)
    (i j : Nat)
    (hsi : report.get? i = some sk) (hsf : ∀ k, k < i → report.get? k ≠ some sk)
    (hei : report.get? j = some ek) (hef : ∀ k, k < j → report.get? k ≠ some ek) :
    output_block_finder report sk ek trim =
      some ((if trim then pySlice report (i : Int) ((j : Int) - 3)
             else (report.take j).drop i),
            report.drop j) :=
  output_block_finder_eval report sk ek trim i j hsi hsf hei hef

/-- Witness for C3 at a concrete report. -/
theorem C3_witness :
    output_block_finder ["A", "S", "x", "E", "y"] "S" "E" false =
      some (((["A", "S", "x", "E", "y"] : List String).take 3).drop 1,
        (["A", "S", "x", "E", "y"] : List String).drop 3) := by
  have h := C3_block_and_residual ["A", "S", "x", "E", "y"] "S" "E" false 1 3
    (by decide) (by decide) (by decide) (by decide)
  simpa using h

/-- Claim C4: a sub-block containing the failure token is truncated at the
first blank line (the line `" "`), all `"**"` fail flags are replaced by two
spaces, and only then is the end-member line filter applied — so the
sub-block is processed exactly like the (already clean) normalised sub-block
of a successful minimisation. -/
theorem C4_failed_subblock_normalisation (sb sb2 : List String) (cut : Nat)
    (hfail : sb.any hasFailToken = true)
    (hcut : firstIdx " " sb = some cut)
    (hok : sb2.any hasFailToken = false) :
    processSubblock sb = some (filterEndmember ((sb.take cut).map replaceFailMarks)) ∧
    processSubblock sb2 = some (filterEndmember sb2) := by
  constructor
  · simp [processSubblock, normalizeFailed, hfail, hcut]
  · simp [processSubblock, normalizeFailed, hok]

/-- Witness for C4 at a concrete failed sub-block: the truncated, de-flagged
sub-block is then processed like a successful one. -/
theorem C4_witness :
    processSubblock c4_sb =
      some (filterEndmember ((c4_sb.take 1).map replaceFailMarks)) ∧
    processSubblock ((c4_sb.take 1).map replaceFailMarks) =
      some (filterEndmember ((c4_sb.take 1).map replaceFailMarks)) :=
  C4_failed_subblock_normalisation c4_sb ((c4_sb.take 1).map replaceFailMarks) 1
    (by decide) (by decide) (by decide)

/-- Claim C9 counterexample: both markers occur in `["E", "S"]`, the finder
returns, but the returned block is empty, so its first line is not the start
marker (the claim fails as stated when the end marker precedes the start
marker). -/
theorem C9_counterexample :
    ("S" : String) ∈ (["E", "S"] : List String) ∧
    ("E" : String) ∈ (["E", "S"] : List String) ∧
    (output_block_finder ["E", "S"] "S" "E" false).map (fun p => p.1.head?) =
      some none := by
  refine ⟨by decide, by decide, by decide⟩

/-- Claim C9 (amended): when the first occurrence of the start marker
strictly precedes the block's effective end (`j` without trimming, `j - 3`
with trimming and `3 ≤ j`), the returned block's first line equals the start
marker and no line of the block equals the end marker. -/
theorem C9_amended_block_invariant (report : List String) (sk ek : String) (trim : Bool)
    (i j : Nat) (block residual : List String)
    (hsi : report.get? i = some sk) (hsf : ∀ k, k < i → report.get? k ≠ some sk)
    (hei : report.get? j = some ek) (hef : ∀ k, k < j → report.get? k ≠ some ek)
    (hlt : if trim then 3 ≤ j ∧ i < j - 3 else i < j)
    (h : output_block_finder report sk ek trim = some (block, residual)) :
    block.head? = some sk ∧ ek ∉ block := by
  rw [output_block_finder_eval report sk ek trim i j hsi hsf hei hef] at h
  have hblock : ∃ e, e ≤ j ∧ i < e ∧ block = (report.take e).drop i := by
    cases trim with
    | false =>
      rw [if_neg Bool.false_ne_true] at h hlt
      exact ⟨j, le_refl j, hlt, by injection h with h'; exact (congrArg Prod.fst h').symm⟩
    | true =>
      rw [if_pos rfl] at h hlt
      obtain ⟨h3, hij⟩ := hlt
      have hcast : ((j : Int) - 3) = ((j - 3 : Nat) : Int) := by omega
      rw [hcast, pySlice_ofNat] at h
      exact ⟨j - 3, Nat.sub_le j 3, hij, by injection h with h'; exact (congrArg Prod.fst h').symm⟩
  obtain ⟨e, hej, hie, rfl⟩ := hblock
  constructor
  · rw [head?_drop_eq_get?, get?_take_lt report i e hie, hsi]
  · intro hmem
    have hmem' : ek ∈ report.take e := List.drop_subset _ _ hmem
    obtain ⟨k, hk, hgk⟩ := mem_take_get? report e ek hmem'
    exact hef k (lt_of_lt_of_le hk hej) hgk

/-- Witness for the amended C9 at a concrete report. -/
theorem C9_witness :
    (((["A", "S", "x", "E", "y"] : List String).take 3).drop 1).head? = some "S" ∧
    ("E" : String) ∉ ((["A", "S", "x", "E", "y"] : List String).take 3).drop 1 := by
  have h := C9_amended_block_invariant ["A", "S", "x", "E", "y"] "S" "E" false 1 3
    (((["A", "S", "x", "E", "y"] : List String).take 3).drop 1)
    ((["A", "S", "x", "E", "y"] : List String).drop 3)
    (by decide) (by decide) (by decide) (by decide) (by decide)
    (by decide)
  exact h

/-- Claim C5 counterexample: a pure phase `q` whose first line carries the
entry-zero marker emits a trivial one-entry sub-block keyed by `q`, whose
single end-member equals the phase itself — and downstream the assembled
mineral is marked as a solution (`solution_phase = true`), not as "not a
solution" as the claim states. -/
theorem C5_counterexample :
    extract_solution_subblocks [c5_line] = some [("q", [c5_line])] ∧
    (mkMineral c5_bv [("q", [c5_line])] c5_bc c5_be false "q").map
        Mineral.solution_phase = some true ∧
    (mkMineral c5_bv [("q", [c5_line])] c5_bc c5_be false "q").map
        (fun m => m.endmember_fractions.map Prod.fst) = some ["q"] := by
  refine ⟨by decide, by decide, by decide⟩

/-- Claim C5 (amended): downstream, the mineral assembled by the
`add_minerals` body is marked as a solution (`solution_phase = true`) iff its
name is a key of the splitter's mapping — in particular a pure phase
registered with a trivial one-entry sub-block equal to itself is marked as a
solution, and a phase whose name is not a key keeps
`solution_phase = false`. -/
theorem C5_amended_solution_flag (block_volume : List String)
    (block_solutions : List (String × List String))
    (block_composition block_elements : List String) (ovf : Bool)
    (temp_name : String) (m : Mineral)
    (h : mkMineral block_volume block_solutions block_composition block_elements
        ovf temp_name = some m) :
    m.solution_phase = true ↔ temp_name ∈ block_solutions.map Prod.fst := by
  rw [mkMineral] at h
  simp only [optBind_eq_some] at h
  obtain ⟨props, hp, h⟩ := h
  obtain ⟨apfu, ha, h⟩ := h
  obtain ⟨moles, hm, h⟩ := h
  cases hk : lookupAssoc block_solutions temp_name with
  | none =>
    rw [hk] at h
    simp only [Option.pure_def, Option.some.injEq] at h
    subst h
    simp [(lookupAssoc_eq_none_iff block_solutions temp_name).mp hk]
  | some sb =>
    rw [hk] at h
    simp only [optBind_eq_some] at h
    obtain ⟨em, _hem, h⟩ := h
    simp only [Option.pure_def, Option.some.injEq] at h
    subst h
    simp [lookupAssoc_some_mem block_solutions temp_name sb hk]

/-- Witness for the amended C5 at the concrete pure-phase sub-block. -/
theorem C5_witness :
    c5_min.solution_phase = true ↔ "q" ∈ ([("q", [c5_line])].map Prod.fst) :=
  C5_amended_solution_flag c5_bv [("q", [c5_line])] c5_bc c5_be false "q" c5_min
    (by decide)

/-- Claim C6 counterexample: looking up phase `q` in a block whose first
matching line belongs to the distinct phase `qz` (whose name has `q` as a
proper prefix) selects `qz`'s line, and `add_composition_apfu` returns
`qz`'s numbers for `q`. -/
theorem C6_counterexample :
    find_startswith (" " ++ "q") [" qz  1.0  2.0  3.0", " q  5.0  6.0  7.0"] =
      some " qz  1.0  2.0  3.0" ∧
    add_composition_apfu [" qz  1.0  2.0  3.0", " q  5.0  6.0  7.0"] "q" false =
      some [1.0, 2.0] ∧
    pyStartsWith " qz  1.0  2.0  3.0" (" " ++ "qz") = true ∧ ("qz" : String) ≠ "q" := by
  refine ⟨by decide, by decide, by decide, by decide⟩

/-- Claim C6 (amended): the property/composition lookup returns the first
line of the block starting with the table's indentation-plus-name prefix;
when exactly one line carries that prefix — in particular when no other
phase's name has the looked-up name as a prefix — it selects precisely that
phase's data line. -/
theorem C6_amended_unique_lookup (block : List String) (pre l : String)
    (hl : l ∈ block) (hp : pyStartsWith l pre = true)
    (huniq : ∀ m ∈ block, pyStartsWith m pre = true → m = l) :
    find_startswith pre block = some l := by
  induction block with
  | nil => cases hl
  | cons b bs ih =>
    by_cases hb : pyStartsWith b pre = true
    · have hbl : b = l := huniq b (List.mem_cons_self b bs) hb
      rw [find_startswith, List.filter_cons, if_pos hb, hbl]
      rfl
    · have hlb : l ∈ bs := by
        rcases List.mem_cons.mp hl with rfl | hin
        · exact absurd hp hb
        · exact hin
      have hres := ih hlb (fun m hm hmp => huniq m (List.mem_cons_of_mem _ hm) hmp)
      rw [find_startswith, List.filter_cons, if_neg hb]
      exact hres

/-- Witness for the amended C6 at a block with a unique matching line. -/
theorem C6_witness :
    find_startswith " q" [" z row", " q  5.0  6.0"] = some " q  5.0  6.0" :=
  C6_amended_unique_lookup [" z row", " q  5.0  6.0"] " q" " q  5.0  6.0"
    (by decide) (by decide) (by decide)

/-- Claim C10: the pre-flight bulk check is not complete on valid bulks —
`"SI(10.0)"` parses (per the THERIN format of the `call_theriak` docstring)
to the single element `SI` with the strictly positive amount `10`, yet
`check_for_corrupted_bulk` rejects it, because the unescaped dot of the
regex `0.0+\)` matches the `.` of `10.0`. -/
theorem C10_precheck_incomplete :
    parseTherinBulk "SI(10.0)" = some [("SI", (10.0 : DecFloat))] ∧
    0 < (10.0 : DecFloat).toRat ∧
    check_for_corrupted_bulk "SI(10.0)" = false := by
  refine ⟨by decide, ?_, by decide⟩
  have h10 : (10.0 : DecFloat) = ⟨10, 0⟩ := by decide
  rw [h10, DecFloat.toRat]
  norm_num

theorem create_rock_no_fluids (P T : ℤ) (pt bk : String) (blocks : Blocks) (ovf : Bool)
    (rock : Rock) (h : create_rock P T pt bk blocks ovf false = some rock) :
    rock.fluid_assemblage = [] := by
  rw [create_rock] at h
  simp only [optBind_eq_some, Option.pure_def, Option.some.injEq] at h
  obtain ⟨bulk, hbulk, g, hg, dens, hdens, minerals, hmin, h⟩ := h
  rw [if_neg Bool.false_ne_true] at h
  simp only [optBind_eq_some, Option.pure_def, Option.some.injEq] at h
  obtain ⟨fluids, hf, dG, hdG, h⟩ := h
  subst hf
  subst h
  rfl

/-- Claim C7: for a report whose gases-and-fluids marker line is absent,
`read_theriak` (when the other blocks parse) yields `fluids_stable = false`
with an empty fluid block, the resulting rock has an empty fluid assemblage,
and the guarded fluid step itself never raises: it returns
`(false, [], residual)` with the residual untouched. -/
theorem C7_no_fluids (report : String) (res : Blocks × List String × Bool × Bool)
    (habs : start_key_fluid ∉ pySplitlines report)
    (h : read_theriak report = some res) :
    res.2.2.2 = false ∧ res.1.block_fluid = [] ∧
    (∀ (P T : ℤ) (pt bk : String) (rock : Rock),
      create_rock P T pt bk res.1 res.2.2.1 res.2.2.2 = some rock →
        rock.fluid_assemblage = []) ∧
    (∀ residual : List String, start_key_fluid ∉ residual →
      fluid_block_step residual = (false, [], residual)) := by
  rw [read_theriak] at h
  simp only [optBind_eq_some] at h
  obtain ⟨⟨bb, r1⟩, h1, h⟩ := h
  obtain ⟨⟨bg, r2⟩, h2, h⟩ := h
  obtain ⟨⟨bp, r3⟩, h3, h⟩ := h
  obtain ⟨⟨bv, r4⟩, h4, h⟩ := h
  obtain ⟨n1, hn1⟩ := output_block_finder_residual _ bb r1 _ _ _ h1
  obtain ⟨n2, hn2⟩ := output_block_finder_residual _ bg r2 _ _ _ h2
  obtain ⟨n3, hn3⟩ := output_block_finder_residual _ bp r3 _ _ _ h3
  have habs3 : start_key_fluid ∉ r3 := by
    intro hm
    apply habs
    apply List.drop_subset n1
    rw [← hn1]
    apply List.drop_subset n2
    rw [← hn2]
    apply List.drop_subset n3
    rw [← hn3]
    exact hm
  rw [fluid_block_step_absent r3 habs3] at h
  simp only at h
  obtain ⟨⟨bel, r6⟩, h6, h⟩ := h
  obtain ⟨⟨bco, r7⟩, h7, h⟩ := h
  obtain ⟨⟨bdg, r8⟩, h8, h⟩ := h
  obtain ⟨sols, hsol, h⟩ := h
  obtain ⟨lastL, hlast, h⟩ := h
  obtain ⟨elemL, helem, h⟩ := h
  by_cases hov : pyStartsWith lastL overflow_indent = true
  · rw [if_pos hov] at h
    simp only [optBind_eq_some, Option.pure_def, Option.some.injEq] at h
    obtain ⟨l2, hl2, y, hy, h⟩ := h
    subst h
    exact ⟨rfl, rfl,
      fun P T pt bk rock hcr => create_rock_no_fluids P T pt bk _ _ rock hcr,
      fun residual hres => fluid_block_step_absent residual hres⟩
  · rw [if_neg hov] at h
    simp only [optBind_eq_some, Option.pure_def, Option.some.injEq] at h
    obtain ⟨y, hy, h⟩ := h
    subst h
    exact ⟨rfl, rfl,
      fun P T pt bk rock hcr => create_rock_no_fluids P T pt bk _ _ rock hcr,
      fun residual hres => fluid_block_step_absent residual hres⟩

/-- Witness for C7 at the concrete fluid-free report. -/
theorem C7_witness :
    c7_res.2.2.2 = false ∧ c7_res.1.block_fluid = [] :=
  ⟨(C7_no_fluids c7_report c7_res (by decide) (by decide)).1,
   (C7_no_fluids c7_report c7_res (by decide) (by decide)).2.1⟩

theorem optSomeBind {α β : Type} (a : α) (f : α → Option β) :
    (some a >>= f) = f a := rfl

theorem mapM_map_comp {α β γ : Type} (g : α → β) (f : β → Option γ) (l : List α) :
    (l.map g).mapM f = l.mapM (fun a => f (g a)) := by
  induction l with
  | nil => rfl
  | cons a as ih =>
    rw [List.map_cons, List.mapM_cons, List.mapM_cons, ih]

theorem pyDictInsert_not_mem {β : Type} (l : List (String × β)) (k : String) (v : β)
    (h : k ∉ l.map Prod.fst) : pyDictInsert l k v = l ++ [(k, v)] := by
  rw [pyDictInsert, if_neg]
  rw [List.find?_eq_none.mpr]
  · simp
  · intro p hp
    simp only [beq_iff_eq]
    intro hpk
    exact h (List.mem_map.mpr ⟨p, hp, hpk⟩)

theorem pyDict_go {β : Type} (pairs acc : List (String × β))
    (hd : ((acc.map Prod.fst) ++ (pairs.map Prod.fst)).Nodup) :
    pairs.foldl (fun a p => pyDictInsert a p.1 p.2) acc = acc ++ pairs := by
  induction pairs generalizing acc with
  | nil => simp
  | cons p ps ih =>
    rw [List.foldl_cons]
    have hnotin : p.1 ∉ acc.map Prod.fst := by
      rw [List.nodup_append] at hd
      intro hmem
      exact hd.2.2 hmem (by simp)
    rw [pyDictInsert_not_mem acc p.1 p.2 hnotin]
    have hd' : (((acc ++ [(p.1, p.2)]).map Prod.fst) ++ (ps.map Prod.fst)).Nodup := by
      simp only [List.map_append, List.map_cons, List.map_nil, List.append_assoc,
        List.singleton_append]
      simpa using hd
    rw [ih (acc ++ [(p.1, p.2)]) hd', List.append_assoc]
    simp

theorem pyDict_nodup {β : Type} (pairs : List (String × β))
    (h : (pairs.map Prod.fst).Nodup) : pyDict pairs = pairs := by
  have hgo := pyDict_go pairs [] (by simpa using h)
  simpa [pyDict] using hgo

theorem c8_rows_combine (rows : List (List String)) (idxs : List Nat)
    (names vals : List String) (qs : List DecFloat)
    (hidx : rows.mapM (fun t => firstIdx "0.00000E+00" t) = some idxs)
    (hnm : rows.mapM (fun t => t.get? 2) = some names)
    (hval : (rows.zip idxs).mapM (fun p => p.1.get? (p.2 + 1)) = some vals)
    (hq : vals.mapM parseFloat = some qs) :
    rows.mapM specTokEntry = some (names.zip qs) := by
  induction rows generalizing idxs names vals qs with
  | nil =>
    simp only [List.mapM_nil, Option.pure_def, Option.some.injEq] at hidx hnm
    subst hidx
    subst hnm
    simp only [List.zip_nil_left, List.mapM_nil, Option.pure_def, Option.some.injEq] at hval
    subst hval
    simp only [List.mapM_nil, Option.pure_def, Option.some.injEq] at hq
    subst hq
    rfl
  | cons t ts ih =>
    rw [List.mapM_cons] at hidx hnm
    simp only [optBind_eq_some, Option.pure_def, Option.some.injEq] at hidx hnm
    obtain ⟨i, hti, is, htis, hidxs⟩ := hidx
    obtain ⟨nm, htn, nms, htns, hnms⟩ := hnm
    subst hidxs
    subst hnms
    rw [List.zip_cons_cons, List.mapM_cons] at hval
    simp only [optBind_eq_some, Option.pure_def, Option.some.injEq] at hval
    obtain ⟨v, htv, vs, htvs, hvals⟩ := hval
    subst hvals
    rw [List.mapM_cons] at hq
    simp only [optBind_eq_some, Option.pure_def, Option.some.injEq] at hq
    obtain ⟨q, hpq, qs', hqs', hqq⟩ := hq
    subst hqq
    have hhead : specTokEntry t = some (nm, q) := by
      rw [specTokEntry]
      simp only [htn, hti, htv, hpq, optSomeBind, Option.pure_def]
    have htail := ih is nms vs qs' htis htns htvs hqs'
    rw [List.mapM_cons, List.zip_cons_cons]
    simp only [hhead, htail, optSomeBind, Option.pure_def]

/-- Claim C8: the metastable energy table of `add_deltaG` consists of exactly
the rows after the delimiter rule line whose line begins with `" S"` or
`" P"`, each mapping its third token (the phase name) to the float after the
first zero-sentinel token; no row above the delimiter is included (both
facts are embodied in `metastableTableSpec`, whose result the code table
equals whenever the row names are distinct, as a mapping requires). -/
theorem C8_metastable_table (block_deltaG : List String)
    (tbl stbl : List (String × DecFloat))
    (h : add_deltaG block_deltaG = some tbl)
    (hs : metastableTableSpec block_deltaG = some stbl)
    (hnd : (stbl.map Prod.fst).Nodup) : tbl = stbl := by
  rw [add_deltaG] at h
  rw [metastableTableSpec] at hs
  simp only [optBind_eq_some, Option.pure_def, Option.some.injEq] at h hs
  obtain ⟨delim, hd, idxs, hidx, names, hnm, vals, hval, qs, hq, h⟩ := h
  obtain ⟨delim2, hd2, hs⟩ := hs
  rw [hd] at hd2
  injection hd2 with hdd
  subst hdd
  have hrows := c8_rows_combine
    ((((block_deltaG.drop 5).drop (delim + 1)).filter
      (fun l => pyStartsWith l " S" || pyStartsWith l " P")).map pySplit) idxs names vals qs
    hidx hnm hval hq
  rw [mapM_map_comp] at hrows
  have hrows2 : (((block_deltaG.drop 5).drop (delim + 1)).filter
      (fun l => pyStartsWith l " S" || pyStartsWith l " P")).mapM specRowEntry =
      some (names.zip qs) := hrows
  rw [hrows2] at hs
  injection hs with hss
  subst hss
  rw [pyDict_nodup (names.zip qs) hnd] at h
  exact h.symm

/-- Witness for C8 at a concrete activities block with distinct row names. -/
theorem C8_witness :
    add_deltaG c8_block = some c8_tbl ∧ metastableTableSpec c8_block = some c8_tbl ∧
    (c8_tbl.map Prod.fst).Nodup ∧ c8_tbl = c8_tbl :=
  ⟨by decide, by decide, by decide,
   C8_metastable_table c8_block c8_tbl c8_tbl (by decide) (by decide) (by decide)⟩

end Pytheriak
